import Mathlib

/-!
Verification of the polar-plant dashboard's file-resolution and
data-aggregation layer (`src/main.py`) against its specification.

Modelling conventions:
* A pandas `DataFrame` is modelled as a list of column names together with a
  list of rows, each row an association list from column name to a cell value.
  A cell is a string, a rational number (exact arithmetic stands in for the
  source's floating point), or NaN.
* `unicodedata.normalize` is an external library function; it is modelled as
  an explicit parameter `norm : Form → String → String` of every function
  that uses it.
* The filesystem is modelled as a list of directory entries (name plus
  regular-file flag) together with a content map from a resolved file name to
  the parsed table (`pd.read_csv` / `pd.ExcelFile` are external parsers, so a
  file's parsed content is an input of the model).
* `st.error(msg)` immediately followed by `return None` in the source is
  modelled as `Except.error msg`; a successful return is `Except.ok`.
* pandas `Series.mean` returns NaN on an empty (or all-NaN) column and skips
  NaN cells otherwise; NaN results are modelled as `none : Option ℚ`.
-/

namespace PolarPlant

/-- The two Unicode normalization forms the source iterates over
(`for form in ["NFC", "NFD"]`). -/
inductive Form where
  | NFC : Form
  | NFD : Form
  deriving DecidableEq, Repr

/-- A directory entry: its name and whether it is a regular file
(`p.is_file()`). -/
structure Entry where
  name : String
  is_file : Bool
  deriving DecidableEq, Repr

/-- A cell value of a table: a string, an exact rational standing in for a
float, or NaN. -/
inductive Val where
  | str : String → Val
  | num : ℚ → Val
  | nan : Val
  deriving DecidableEq, Repr

/-- A pandas DataFrame: column names and rows, each row an association list
column name ↦ cell value. -/
structure DF where
  cols : List String
  rows : List (List (String × Val))
  deriving DecidableEq, Repr

/-- Association-list lookup (leftmost binding wins). -/
def alookup {β : Type} (k : String) : List (String × β) → Option β
  | [] => none
  | (k', v) :: rest => if k = k' then some v else alookup k rest

/-- Set key `c` to `v` in one row: replace the existing binding, or append a
new one. -/
def set_in_row (c : String) (v : Val) : List (String × Val) → List (String × Val)
  | [] => [(c, v)]
  | (k, w) :: rest => if k = c then (c, v) :: rest else (k, w) :: set_in_row c v rest

/-- The assignment `df[c] = v` for a scalar `v`: every row gets the value,
and the column is appended to the schema if new. -/
def set_col (df : DF) (c : String) (v : Val) : DF :=
  ⟨if c ∈ df.cols then df.cols else df.cols ++ [c], df.rows.map (set_in_row c v)⟩

/-- The source's `SCHOOL_INFO`: an insertion-ordered mapping (Python dict)
from school name to its target EC and display color. -/
structure SchoolCfg where
  ec : ℚ
  color : String
  deriving DecidableEq, Repr

def SCHOOL_INFO : List (String × SchoolCfg) :=
  [("송도고", ⟨1, "#4C78A8"⟩),
   ("하늘고", ⟨2, "#F58518"⟩),
   ("아라고", ⟨4, "#54A24B"⟩),
   ("동산고", ⟨8, "#E45756"⟩)]

/-- The function `normalize_name(name, form)` delegates to the external
`unicodedata.normalize`, modelled by the parameter `norm`. -/
def normalize_name (norm : Form → String → String) (name : String) (form : Form) : String :=
  norm form name

/-- The inner-loop test of `find_file_by_name`: the entry's name equals the
target after NFC normalization or after NFD normalization (the two forms the
source iterates over). -/
def matches_target (norm : Form → String → String) (target_name : String) (e : Entry) : Prop :=
  normalize_name norm e.name .NFC = normalize_name norm target_name .NFC ∨
  normalize_name norm e.name .NFD = normalize_name norm target_name .NFD

instance (norm : Form → String → String) (target_name : String) (e : Entry) :
    Decidable (matches_target norm target_name e) := by
  unfold matches_target
  exact inferInstance

/-- The function `find_file_by_name(directory, target_name)`: scan the directory entries in
order, skip non-files, and return the first entry whose name equals the
target after NFC normalization or after NFD normalization; `none` if no
entry matches. -/
def find_file_by_name (norm : Form → String → String) (directory : List Entry)
    (target_name : String) : Option Entry :=
  match directory with
  | [] => none
  | p :: rest =>
    if p.is_file = true ∧ matches_target norm target_name p then
      some p
    else
      find_file_by_name norm rest target_name

/-- The environment CSV filename for a school:
`f"{school}_환경데이터.csv"`. -/
def env_filename (school : String) : String :=
  school ++ "_환경데이터.csv"

/-- The error message `st.error` shows for a missing environment file. -/
def env_missing_msg (school : String) : String :=
  "❌ 환경 데이터 파일을 찾을 수 없음: " ++ env_filename school

/-- The loop body of `load_environment_data` over a list of school names:
resolve each school's CSV, abort with the error message on the first failure
(discarding everything), otherwise tag the parsed table with the school and
collect the mapping in order. `content` maps a resolved file name to its
parsed table (`pd.read_csv`). -/
def load_env_loop (norm : Form → String → String) (directory : List Entry)
    (content : String → DF) : List String → Except String (List (String × DF))
  | [] => .ok []
  | school :: rest =>
    match find_file_by_name norm directory (env_filename school) with
    | none => .error (env_missing_msg school)
    | some p =>
      match load_env_loop norm directory content rest with
      | .error e => .error e
      | .ok tail => .ok ((school, set_col (content p.name) "school" (.str school)) :: tail)

/-- The function `load_environment_data()`: iterate over `SCHOOL_INFO`'s keys in
declaration order; on any missing file show the error naming that file and
return `None` (modelled `Except.error`), else return the school → table
mapping. -/
def load_environment_data (norm : Form → String → String) (directory : List Entry)
    (content : String → DF) : Except String (List (String × DF)) :=
  load_env_loop norm directory content (SCHOOL_INFO.map Prod.fst)

/-- The growth workbook filename. -/
def growth_xlsx_name : String := "4개교_생육결과데이터.xlsx"

/-- The error message shown when the growth workbook is missing. -/
def growth_missing_msg : String := "❌ 생육 결과 XLSX 파일을 찾을 수 없음"

/-- The function `load_growth_data()`: resolve the single workbook (error, modelled
`Except.error`, if unresolvable), then for every sheet tag its table with the
sheet name as school and return the sheet-name → table mapping. `wb` maps a
resolved workbook file name to its sheets in order (`pd.ExcelFile` /
`pd.read_excel`); no column of any sheet is inspected or validated. -/
def load_growth_data (norm : Form → String → String) (directory : List Entry)
    (wb : String → List (String × DF)) : Except String (List (String × DF)) :=
  match find_file_by_name norm directory growth_xlsx_name with
  | none => .error growth_missing_msg
  | some p => .ok ((wb p.name).map (fun sh => (sh.1, set_col sh.2 "school" (.str sh.1))))

/-- Extract the rational value of a cell; strings and NaN give `none`
(pandas `mean` skips NaN cells). -/
def num_val : Val → Option ℚ
  | .num q => some q
  | _ => none

/-- The numeric values of column `c` down the rows of `df` (the cells
`Series.mean` averages over; NaN and absent cells are skipped). -/
def col_vals (df : DF) (c : String) : List ℚ :=
  df.rows.filterMap (fun r => (alookup c r).bind num_val)

/-- The column mean `df[c].mean()`: NaN (`none`) when there is no numeric value, otherwise
the arithmetic mean of the numeric values. -/
def col_mean (df : DF) (c : String) : Option ℚ :=
  let vs := col_vals df c
  if vs.length = 0 then none else some (vs.sum / (vs.length : ℚ))

/-- One row of the Tab-3 `summary` table for one school. The source's
`SCHOOL_INFO[school]["ec"]` dictionary access is modelled as an `Option`
lookup. -/
structure SumRow where
  school : String
  ec : Option ℚ
  weight : Option ℚ
  leaf : Option ℚ
  shoot : Option ℚ
  count : ℕ
  deriving DecidableEq, Repr

/-- The body of the Tab-3 `summary` loop for one `(school, df)` item:
target EC from `SCHOOL_INFO`, means of 생중량(g) / 잎 수(장) /
지상부 길이(mm), and the row count `len(df)`. -/
def summary_row_of (school : String) (df : DF) : SumRow :=
  ⟨school, (alookup school SCHOOL_INFO).map SchoolCfg.ec,
   col_mean df "생중량(g)", col_mean df "잎 수(장)", col_mean df "지상부 길이(mm)",
   df.rows.length⟩

/-- The Tab-3 `summary` list: one `SumRow` per school of the growth
mapping, in order. -/
def summary (growth : List (String × DF)) : List SumRow :=
  growth.map (fun p => summary_row_of p.1 p.2)

/-- One row of the Tab-2 `avg_rows` table for one school. -/
structure EnvAvgRow where
  school : String
  temperature : Option ℚ
  humidity : Option ℚ
  ph : Option ℚ
  ec : Option ℚ
  target_ec : Option ℚ
  deriving DecidableEq, Repr

/-- The body of the Tab-2 `avg_rows` loop for one `(school, df)` item:
means of temperature / humidity / ph / ec plus the target EC from
`SCHOOL_INFO`. -/
def avg_row_of (school : String) (df : DF) : EnvAvgRow :=
  ⟨school, col_mean df "temperature", col_mean df "humidity", col_mean df "ph",
   col_mean df "ec", (alookup school SCHOOL_INFO).map SchoolCfg.ec⟩

/-- The Tab-2 `avg_rows` list: one `EnvAvgRow` per school of the
environment mapping, in order. -/
def avg_rows (env : List (String × DF)) : List EnvAvgRow :=
  env.map (fun p => avg_row_of p.1 p.2)

/-! ### Concrete inputs used by witnesses and counterexamples -/

/-- A concrete normalization function: both forms are the identity (files
stored in exactly the target's form). -/
def idnorm : Form → String → String := fun _ s => s

/-- A directory holding the environment CSVs of 송도고, 아라고 and 동산고 and
the growth workbook, but not 하늘고's CSV. -/
def dir_missing_haneul : List Entry :=
  [⟨"송도고_환경데이터.csv", true⟩, ⟨"아라고_환경데이터.csv", true⟩,
   ⟨"동산고_환경데이터.csv", true⟩, ⟨"4개교_생육결과데이터.xlsx", true⟩]

/-- A directory holding the environment CSVs of 하늘고, 아라고 and 동산고,
but not 송도고's CSV. -/
def dir_missing_songdo : List Entry :=
  [⟨"하늘고_환경데이터.csv", true⟩, ⟨"아라고_환경데이터.csv", true⟩,
   ⟨"동산고_환경데이터.csv", true⟩]

/-- A complete data directory: all four environment CSVs and the workbook. -/
def dir_full : List Entry :=
  ⟨"하늘고_환경데이터.csv", true⟩ :: dir_missing_haneul

/-- A parsed table with no rows and no columns. -/
def emptyDF : DF := ⟨[], []⟩

/-- One well-formed environment CSV row. -/
def wrow_env : List (String × Val) :=
  [("time", .str "t0"), ("temperature", .num 21), ("humidity", .num 60),
   ("ph", .num 7), ("ec", .num 2)]

/-- A well-formed single-row environment table. -/
def wenv_df : DF :=
  ⟨["time", "temperature", "humidity", "ph", "ec"], [wrow_env]⟩

/-- A content map that parses every file to the same environment table. -/
def wcontent : String → DF := fun _ => wenv_df

/-- The mapping `load_environment_data` produces on `dir_full` with
`wcontent`. -/
def wenv_result : List (String × DF) :=
  [("송도고", set_col wenv_df "school" (.str "송도고")),
   ("하늘고", set_col wenv_df "school" (.str "하늘고")),
   ("아라고", set_col wenv_df "school" (.str "아라고")),
   ("동산고", set_col wenv_df "school" (.str "동산고"))]

/-- One well-formed growth row. -/
def wgrow_row : List (String × Val) :=
  [("생중량(g)", .num 5), ("잎 수(장)", .num 3), ("지상부 길이(mm)", .num 7)]

/-- A well-formed single-row growth sheet. -/
def wgrow_df : DF :=
  ⟨["생중량(g)", "잎 수(장)", "지상부 길이(mm)"], [wgrow_row]⟩

/-- A workbook with a single well-formed sheet for 하늘고. -/
def wb_good : String → List (String × DF) := fun _ => [("하늘고", wgrow_df)]

/-- A growth sheet lacking the required columns 생중량(g) and
지상부 길이(mm). -/
def badsheet_df : DF := ⟨["잎 수(장)"], [[("잎 수(장)", .num 5)]]⟩

/-- A workbook whose only sheet lacks required growth columns. -/
def wb_bad : String → List (String × DF) := fun _ => [("하늘고", badsheet_df)]

/-- The bad sheet after `load_growth_data` tags it: unchanged apart from the
school column. -/
def badsheet_tagged : DF :=
  ⟨["잎 수(장)", "school"], [[("잎 수(장)", .num 5), ("school", .str "하늘고")]]⟩

/-- Modelled from the spec: the source contains no merge of the environment
and growth summary tables (section 4.3 `merge(envSummaries, growthSummaries)`
is specified but absent from `src/main.py`); this follows the spec's words —
an inner join on the School identifier that drops any school present in only
one side. -/
def merge {α β : Type} (E : List (String × α)) (G : List (String × β)) :
    List (String × α × β) :=
  E.filterMap (fun p => (alookup p.1 G).map (fun b => (p.1, p.2, b)))

/-- Modelled from the spec: one merged per-school row restricted to the three
fields `correlate` is applied to (spec section 4.3 specifies
`correlate(mergedRows, fields)` over {temperature, ec, weight}; no such
computation exists in `src/main.py`). -/
structure MergedRow where
  temperature : ℚ
  ec : ℚ
  weight : ℚ
  deriving DecidableEq, Repr

/-- Arithmetic mean of a list of rationals. -/
def listMean (l : List ℚ) : ℚ := l.sum / l.length

/-- The centered product sum Σ (f r − mean f) · (g r − mean g) over the
rows: the shared numerator/denominator building block of the Pearson
coefficient. -/
def centeredSum (rows : List MergedRow) (f g : MergedRow → ℚ) : ℚ :=
  (rows.map (fun r => (f r - listMean (rows.map f)) * (g r - listMean (rows.map g)))).sum

/-- Modelled from the spec: the Pearson correlation coefficient of two
fields over the merged rows (the square root forces real values). -/
noncomputable def pearson (rows : List MergedRow) (f g : MergedRow → ℚ) : ℝ :=
  (centeredSum rows f g : ℝ) /
    Real.sqrt ((centeredSum rows f f : ℝ) * (centeredSum rows g g : ℝ))

/-- The three fields the spec's correlation matrix ranges over, in order:
temperature, ec, weight. -/
def corr_fields : Fin 3 → MergedRow → ℚ
  | ⟨0, _⟩ => MergedRow.temperature
  | ⟨1, _⟩ => MergedRow.ec
  | ⟨2, _⟩ => MergedRow.weight

/-- Modelled from the spec: `correlate` — the 3×3 Pearson correlation matrix
over {temperature, ec, weight} across the merged per-school rows. -/
noncomputable def correlate (rows : List MergedRow) : Fin 3 → Fin 3 → ℝ :=
  fun i j => pearson rows (corr_fields i) (corr_fields j)

/-- Two concrete merged rows with distinct values in every field. -/
def wrows : List MergedRow := [⟨0, 0, 0⟩, ⟨1, 2, 3⟩]

/-! ### C2 and C3: find_file_by_name -/

/-- C2: any entry `find_file_by_name` returns is a regular file that matches
the target under NFC or NFD; if the directory holds a matching regular file
then some matching file is returned; and when the matching regular file is
unique — in particular whichever normalization form its on-disk name is
stored in — exactly that file is returned. -/
theorem find_file_by_name_spec (norm : Form → String → String) (directory : List Entry)
    (target_name : String) :
    (∀ r, find_file_by_name norm directory target_name = some r →
      r.is_file = true ∧ matches_target norm target_name r) ∧
    (∀ e ∈ directory, e.is_file = true → matches_target norm target_name e →
      ∃ r, find_file_by_name norm directory target_name = some r) ∧
    (∀ e ∈ directory, e.is_file = true → matches_target norm target_name e →
      (∀ e' ∈ directory, e'.is_file = true → matches_target norm target_name e' → e' = e) →
      find_file_by_name norm directory target_name = some e) := by
  induction directory with
  | nil =>
    refine ⟨?_, ?_, ?_⟩
    · intro r h
      simp [find_file_by_name] at h
    · intro e he
      simp at he
    · intro e he
      simp at he
  | cons p rest ih =>
    refine ⟨?_, ?_, ?_⟩
    · intro r h
      by_cases hp : p.is_file = true ∧ matches_target norm target_name p
      · simp only [find_file_by_name, if_pos hp] at h
        cases h
        exact hp
      · simp only [find_file_by_name, if_neg hp] at h
        exact ih.1 r h
    · intro e he hf hm
      by_cases hp : p.is_file = true ∧ matches_target norm target_name p
      · exact ⟨p, by simp only [find_file_by_name, if_pos hp]⟩
      · rcases List.mem_cons.mp he with rfl | he'
        · exact absurd ⟨hf, hm⟩ hp
        · obtain ⟨r, hr⟩ := ih.2.1 e he' hf hm
          exact ⟨r, by simp only [find_file_by_name, if_neg hp]; exact hr⟩
    · intro e he hf hm huniq
      by_cases hp : p.is_file = true ∧ matches_target norm target_name p
      · have hpe : p = e := huniq p (List.mem_cons_self p rest) hp.1 hp.2
        subst hpe
        simp only [find_file_by_name, if_pos hp]
      · rcases List.mem_cons.mp he with rfl | he'
        · exact absurd ⟨hf, hm⟩ hp
        · have := ih.2.2 e he' hf hm
            (fun e' he'' hf' hm' => huniq e' (List.mem_cons_of_mem p he'') hf' hm')
          simp only [find_file_by_name, if_neg hp]
          exact this

/-- Witness for C2: in a directory whose first entry is a *directory* named
exactly like the target and whose second entry is the regular file, the file
— the unique matching regular file — is returned, not the directory. -/
theorem find_file_by_name_spec_witness :
    find_file_by_name idnorm
      [⟨"하늘고_환경데이터.csv", false⟩, ⟨"하늘고_환경데이터.csv", true⟩]
      "하늘고_환경데이터.csv" = some ⟨"하늘고_환경데이터.csv", true⟩ :=
  (find_file_by_name_spec idnorm
      [⟨"하늘고_환경데이터.csv", false⟩, ⟨"하늘고_환경데이터.csv", true⟩]
      "하늘고_환경데이터.csv").2.2
    ⟨"하늘고_환경데이터.csv", true⟩ (by decide) (by decide) (by decide) (by decide)

/-- C3: when no regular file in the directory matches the target under NFC or
NFD, `find_file_by_name` returns `none` (the no-match result reported as a
missing-file failure by the callers). -/
theorem find_file_by_name_none (norm : Form → String → String) (directory : List Entry)
    (target_name : String)
    (h : ∀ e ∈ directory, e.is_file = true → ¬ matches_target norm target_name e) :
    find_file_by_name norm directory target_name = none := by
  induction directory with
  | nil => rfl
  | cons p rest ih =>
    have hp : ¬ (p.is_file = true ∧ matches_target norm target_name p) := by
      rintro ⟨hf, hm⟩
      exact h p (List.mem_cons_self p rest) hf hm
    simp only [find_file_by_name, if_neg hp]
    exact ih (fun e he hf => h e (List.mem_cons_of_mem p he) hf)

/-- Witness for C3: the full directory holds no file matching a foreign
target name, and the search returns `none`. -/
theorem find_file_by_name_none_witness :
    find_file_by_name idnorm dir_full "무말랭이.csv" = none :=
  find_file_by_name_none idnorm dir_full "무말랭이.csv" (by decide)

/-! ### Loader lemmas -/

/-- A successful `load_env_loop` returns one entry per requested school, in
request order. -/
lemma load_env_loop_ok_keys (norm : Form → String → String) (directory : List Entry)
    (content : String → DF) :
    ∀ (l : List String) (m : List (String × DF)),
      load_env_loop norm directory content l = .ok m → m.map Prod.fst = l := by
  intro l
  induction l with
  | nil =>
    intro m h
    simp only [load_env_loop] at h
    cases h
    rfl
  | cons school rest ih =>
    intro m h
    simp only [load_env_loop] at h
    cases hf : find_file_by_name norm directory (env_filename school) with
    | none => rw [hf] at h; cases h
    | some p =>
      rw [hf] at h
      cases hl : load_env_loop norm directory content rest with
      | error e => rw [hl] at h; cases h
      | ok tail =>
        rw [hl] at h
        cases h
        simp only [List.map_cons]
        rw [ih tail hl]

/-- A successful `load_env_loop` implies every requested school's file
resolved. -/
lemma load_env_loop_ok_find (norm : Form → String → String) (directory : List Entry)
    (content : String → DF) :
    ∀ (l : List String) (m : List (String × DF)),
      load_env_loop norm directory content l = .ok m →
      ∀ s ∈ l, find_file_by_name norm directory (env_filename s) ≠ none := by
  intro l
  induction l with
  | nil =>
    intro m _ s hs
    simp at hs
  | cons school rest ih =>
    intro m h s hs
    simp only [load_env_loop] at h
    cases hf : find_file_by_name norm directory (env_filename school) with
    | none => rw [hf] at h; cases h
    | some p =>
      rw [hf] at h
      cases hl : load_env_loop norm directory content rest with
      | error e => rw [hl] at h; cases h
      | ok tail =>
        rcases List.mem_cons.mp hs with rfl | hs'
        · rw [hf]; exact fun hc => Option.noConfusion hc
        · exact ih tail hl s hs'

/-- Every table a successful `load_env_loop` returns is some parsed file
content with the school column set to its own key. -/
lemma load_env_loop_ok_entry (norm : Form → String → String) (directory : List Entry)
    (content : String → DF) :
    ∀ (l : List String) (m : List (String × DF)),
      load_env_loop norm directory content l = .ok m →
      ∀ s df, (s, df) ∈ m → ∃ nm, df = set_col (content nm) "school" (.str s) := by
  intro l
  induction l with
  | nil =>
    intro m h s df hm
    simp only [load_env_loop] at h
    cases h
    simp at hm
  | cons school rest ih =>
    intro m h s df hm
    simp only [load_env_loop] at h
    cases hf : find_file_by_name norm directory (env_filename school) with
    | none => rw [hf] at h; cases h
    | some p =>
      rw [hf] at h
      cases hl : load_env_loop norm directory content rest with
      | error e => rw [hl] at h; cases h
      | ok tail =>
        rw [hl] at h
        cases h
        rcases List.mem_cons.mp hm with heq | hm'
        · cases heq
          exact ⟨p.name, rfl⟩
        · exact ih tail hl s df hm'

/-- Setting a column makes it present in every row. -/
lemma alookup_set_in_row (c : String) (v : Val) (r : List (String × Val)) :
    alookup c (set_in_row c v r) = some v := by
  induction r with
  | nil => simp [set_in_row, alookup]
  | cons kv rest ih =>
    obtain ⟨k, w⟩ := kv
    by_cases hk : k = c
    · subst hk
      simp [set_in_row, alookup]
    · simp only [set_in_row, if_neg hk, alookup]
      rw [if_neg (fun h => hk h.symm)]
      exact ih

/-! ### C1: missing environment CSV -/

/-- Counterexample to C1 as stated: with 하늘고's CSV missing,
`load_environment_data` returns only the failure naming that file — the
already-resolvable schools 송도고/아라고/동산고 are *not* delivered to the
caller, which receives no mapping at all. -/
theorem load_environment_data_missing_cex :
    load_environment_data idnorm dir_missing_haneul wcontent =
      .error (env_missing_msg "하늘고") := rfl

/-- C1 as amended: if exactly one school's environment CSV fails to resolve
(all other schools' CSVs do resolve), `load_environment_data` fails with the
error message naming exactly that school's file, and — being a failure —
returns none of the other schools' data. -/
theorem load_environment_data_missing_school (norm : Form → String → String)
    (directory : List Entry) (content : String → DF) (s : String)
    (hs : s ∈ SCHOOL_INFO.map Prod.fst)
    (hmiss : find_file_by_name norm directory (env_filename s) = none)
    (hothers : ∀ t ∈ SCHOOL_INFO.map Prod.fst, t ≠ s →
      find_file_by_name norm directory (env_filename t) ≠ none) :
    load_environment_data norm directory content = .error (env_missing_msg s) := by
  have hlist : SCHOOL_INFO.map Prod.fst = ["송도고", "하늘고", "아라고", "동산고"] := rfl
  rw [hlist] at hs hothers
  unfold load_environment_data
  rw [hlist]
  simp only [List.mem_cons, List.not_mem_nil, or_false] at hs
  rcases hs with rfl | rfl | rfl | rfl
  · simp only [load_env_loop, hmiss]
  · obtain ⟨p1, hp1⟩ := Option.ne_none_iff_exists'.mp
      (hothers "송도고" (by simp) (by decide))
    simp only [load_env_loop, hp1, hmiss]
  · obtain ⟨p1, hp1⟩ := Option.ne_none_iff_exists'.mp
      (hothers "송도고" (by simp) (by decide))
    obtain ⟨p2, hp2⟩ := Option.ne_none_iff_exists'.mp
      (hothers "하늘고" (by simp) (by decide))
    simp only [load_env_loop, hp1, hp2, hmiss]
  · obtain ⟨p1, hp1⟩ := Option.ne_none_iff_exists'.mp
      (hothers "송도고" (by simp) (by decide))
    obtain ⟨p2, hp2⟩ := Option.ne_none_iff_exists'.mp
      (hothers "하늘고" (by simp) (by decide))
    obtain ⟨p3, hp3⟩ := Option.ne_none_iff_exists'.mp
      (hothers "아라고" (by simp) (by decide))
    simp only [load_env_loop, hp1, hp2, hp3, hmiss]

/-- Witness for the amended C1: with only 송도고's CSV missing, the load
fails with the message naming 송도고's file. -/
theorem load_environment_data_missing_school_witness :
    load_environment_data idnorm dir_missing_songdo wcontent =
      .error (env_missing_msg "송도고") :=
  load_environment_data_missing_school idnorm dir_missing_songdo wcontent "송도고"
    (by decide) (by decide) (by decide)

/-! ### C10: all-or-nothing loading -/

/-- C10: `load_environment_data` never returns a partial mapping — a
successful result covers exactly the four schools of `SCHOOL_INFO` in
declaration order, and if any school's CSV fails to resolve the result is
a failure carrying no data at all. -/
theorem load_environment_data_all_or_nothing (norm : Form → String → String)
    (directory : List Entry) (content : String → DF) :
    (∀ m, load_environment_data norm directory content = .ok m →
      m.map Prod.fst = SCHOOL_INFO.map Prod.fst) ∧
    ((∃ s ∈ SCHOOL_INFO.map Prod.fst,
        find_file_by_name norm directory (env_filename s) = none) →
      ∀ m, load_environment_data norm directory content ≠ .ok m) := by
  constructor
  · intro m h
    exact load_env_loop_ok_keys norm directory content _ m h
  · rintro ⟨s, hs, hnone⟩ m h
    exact load_env_loop_ok_find norm directory content _ m h s hs hnone

/-- Witness for C10: on the complete directory the load succeeds and its key
list is exactly `SCHOOL_INFO`'s school list in order. -/
theorem load_environment_data_all_or_nothing_witness :
    wenv_result.map Prod.fst = SCHOOL_INFO.map Prod.fst :=
  (load_environment_data_all_or_nothing idnorm dir_full wcontent).1 wenv_result rfl

/-! ### C9: every row is tagged with its school -/

/-- C9: on success, both loaders return mappings in which every row of a
school's table carries that school's identifier in its `school` column
(for growth data the school is the sheet name). -/
theorem loaders_tag_rows (norm : Form → String → String) (directory : List Entry)
    (content : String → DF) (wb : String → List (String × DF)) :
    (∀ m, load_environment_data norm directory content = .ok m →
      ∀ s df, (s, df) ∈ m → ∀ r ∈ df.rows, alookup "school" r = some (.str s)) ∧
    (∀ m, load_growth_data norm directory wb = .ok m →
      ∀ s df, (s, df) ∈ m → ∀ r ∈ df.rows, alookup "school" r = some (.str s)) := by
  constructor
  · intro m h s df hm r hr
    obtain ⟨nm, rfl⟩ := load_env_loop_ok_entry norm directory content _ m h s df hm
    obtain ⟨r0, _, rfl⟩ := List.mem_map.mp hr
    exact alookup_set_in_row "school" (.str s) r0
  · intro m h s df hm r hr
    unfold load_growth_data at h
    cases hf : find_file_by_name norm directory growth_xlsx_name with
    | none => rw [hf] at h; cases h
    | some p =>
      rw [hf] at h
      cases h
      obtain ⟨sh, _, heq⟩ := List.mem_map.mp hm
      injection heq with h1 h2
      subst h1
      subst h2
      obtain ⟨r0, _, rfl⟩ := List.mem_map.mp hr
      exact alookup_set_in_row "school" (.str sh.1) r0

/-- Witness for C9. -/
theorem loaders_tag_rows_witness :
    alookup "school" (wrow_env ++ [("school", Val.str "송도고")]) =
      some (Val.str "송도고") ∧
    alookup "school" (wgrow_row ++ [("school", Val.str "하늘고")]) =
      some (Val.str "하늘고") :=
  ⟨(loaders_tag_rows idnorm dir_full wcontent wb_good).1 wenv_result rfl
      "송도고" (set_col wenv_df "school" (.str "송도고")) (by decide)
      (wrow_env ++ [("school", Val.str "송도고")]) (by decide),
   (loaders_tag_rows idnorm dir_full wcontent wb_good).2
      [("하늘고", set_col wgrow_df "school" (.str "하늘고"))] rfl
      "하늘고" (set_col wgrow_df "school" (.str "하늘고")) (by decide)
      (wgrow_row ++ [("school", Val.str "하늘고")]) (by decide)⟩

/-! ### C4 and C5: per-school means -/

/-- The mean of a one-row column is that row's value. -/
lemma col_mean_singleton (df : DF) (r : List (String × Val)) (c : String) (q : ℚ)
    (hrows : df.rows = [r]) (hl : alookup c r = some (.num q)) :
    col_mean df c = some q := by
  unfold col_mean col_vals
  rw [hrows]
  simp [hl, num_val]

/-- The mean of a column of an empty table is NaN (`none`). -/
lemma col_mean_nil (df : DF) (c : String) (hrows : df.rows = []) :
    col_mean df c = none := by
  unfold col_mean col_vals
  rw [hrows]
  rfl

/-- C4: over a single-record group both summaries are the identity — the
Tab-3 growth summary returns the record's weight, leaf count and shoot
length unchanged (with count 1), and the Tab-2 environment summary returns
the record's temperature, humidity, pH and EC unchanged. -/
theorem summary_singleton_identity :
    (∀ (s : String) (df : DF) (r : List (String × Val)) (w l sh : ℚ),
      df.rows = [r] →
      alookup "생중량(g)" r = some (.num w) →
      alookup "잎 수(장)" r = some (.num l) →
      alookup "지상부 길이(mm)" r = some (.num sh) →
      (summary_row_of s df).weight = some w ∧
      (summary_row_of s df).leaf = some l ∧
      (summary_row_of s df).shoot = some sh ∧
      (summary_row_of s df).count = 1) ∧
    (∀ (s : String) (df : DF) (r : List (String × Val)) (t h p e : ℚ),
      df.rows = [r] →
      alookup "temperature" r = some (.num t) →
      alookup "humidity" r = some (.num h) →
      alookup "ph" r = some (.num p) →
      alookup "ec" r = some (.num e) →
      (avg_row_of s df).temperature = some t ∧
      (avg_row_of s df).humidity = some h ∧
      (avg_row_of s df).ph = some p ∧
      (avg_row_of s df).ec = some e) := by
  constructor
  · intro s df r w l sh hrows hw hl hsh
    refine ⟨col_mean_singleton df r _ w hrows hw,
      col_mean_singleton df r _ l hrows hl,
      col_mean_singleton df r _ sh hrows hsh, ?_⟩
    simp [summary_row_of, hrows]
  · intro s df r t h p e hrows ht hh hp he
    exact ⟨col_mean_singleton df r _ t hrows ht,
      col_mean_singleton df r _ h hrows hh,
      col_mean_singleton df r _ p hrows hp,
      col_mean_singleton df r _ e hrows he⟩

/-- Witness for C4 on concrete one-row growth and environment tables. -/
theorem summary_singleton_identity_witness :
    ((summary_row_of "하늘고" wgrow_df).weight = some 5 ∧
     (summary_row_of "하늘고" wgrow_df).leaf = some 3 ∧
     (summary_row_of "하늘고" wgrow_df).shoot = some 7 ∧
     (summary_row_of "하늘고" wgrow_df).count = 1) ∧
    ((avg_row_of "하늘고" wenv_df).temperature = some 21 ∧
     (avg_row_of "하늘고" wenv_df).humidity = some 60 ∧
     (avg_row_of "하늘고" wenv_df).ph = some 7 ∧
     (avg_row_of "하늘고" wenv_df).ec = some 2) :=
  ⟨summary_singleton_identity.1 "하늘고" wgrow_df wgrow_row 5 3 7 rfl rfl rfl rfl,
   summary_singleton_identity.2 "하늘고" wenv_df wrow_env 21 60 7 2 rfl rfl rfl rfl rfl⟩

/-- C5: over an empty record group the growth summary's aggregates are NaN
(`none`) — surfaced, never silently coerced to `0` — and the school still
contributes its row to the `summary` table. -/
theorem summary_empty_group_nan (s : String) (df : DF) (hrows : df.rows = []) :
    (summary_row_of s df).weight = none ∧
    (summary_row_of s df).leaf = none ∧
    (summary_row_of s df).shoot = none ∧
    (summary_row_of s df).weight ≠ some 0 ∧
    (∀ growth, (s, df) ∈ growth → summary_row_of s df ∈ summary growth) := by
  have hw := col_mean_nil df "생중량(g)" hrows
  have hl := col_mean_nil df "잎 수(장)" hrows
  have hsh := col_mean_nil df "지상부 길이(mm)" hrows
  refine ⟨hw, hl, hsh, ?_, ?_⟩
  · show (summary_row_of s df).weight ≠ some 0
    rw [show (summary_row_of s df).weight = col_mean df "생중량(g)" from rfl, hw]
    exact fun hc => Option.noConfusion hc
  · intro growth hg
    exact List.mem_map.mpr ⟨(s, df), hg, rfl⟩

/-- Witness for C5 on a concrete empty table. -/
theorem summary_empty_group_nan_witness :
    (summary_row_of "하늘고" emptyDF).weight = none ∧
    (summary_row_of "하늘고" emptyDF).leaf = none ∧
    (summary_row_of "하늘고" emptyDF).shoot = none ∧
    (summary_row_of "하늘고" emptyDF).weight ≠ some 0 ∧
    (∀ growth, ("하늘고", emptyDF) ∈ growth →
      summary_row_of "하늘고" emptyDF ∈ summary growth) :=
  summary_empty_group_nan "하늘고" emptyDF rfl

/-! ### C6: merge is an inner join -/

/-- A key has a lookup result exactly when it is among the keys. -/
lemma alookup_isSome_iff {β : Type} (k : String) (G : List (String × β)) :
    (alookup k G).isSome = true ↔ k ∈ G.map Prod.fst := by
  induction G with
  | nil => simp [alookup]
  | cons p rest ih =>
    obtain ⟨k', v⟩ := p
    by_cases hk : k = k'
    · subst hk
      simp [alookup]
    · simp [alookup, hk, ih]

/-- The join `merge` skips a left entry whose key is absent on the right. -/
lemma merge_cons_none {α β : Type} (k' : String) (a : α) (E : List (String × α))
    (G : List (String × β)) (h : alookup k' G = none) :
    merge ((k', a) :: E) G = merge E G := by
  simp [merge, h]

/-- The join `merge` pairs a left entry whose key is present on the right. -/
lemma merge_cons_some {α β : Type} (k' : String) (a : α) (b : β)
    (E : List (String × α)) (G : List (String × β)) (h : alookup k' G = some b) :
    merge ((k', a) :: E) G = (k', a, b) :: merge E G := by
  simp [merge, h]

/-- C6: `merge` is an inner join on the school identifier — a school appears
in `merge E G` exactly when it appears in both `E` and `G`; a school present
in only one side is dropped. -/
theorem merge_inner_join {α β : Type} (E : List (String × α)) (G : List (String × β))
    (k : String) :
    k ∈ (merge E G).map Prod.fst ↔ k ∈ E.map Prod.fst ∧ k ∈ G.map Prod.fst := by
  induction E with
  | nil => simp [merge]
  | cons p rest ih =>
    obtain ⟨k', a⟩ := p
    cases hG : alookup k' G with
    | none =>
      rw [merge_cons_none k' a rest G hG, ih]
      simp only [List.map_cons, List.mem_cons]
      constructor
      · rintro ⟨hr, hGk⟩
        exact ⟨Or.inr hr, hGk⟩
      · rintro ⟨hk | hr, hGk⟩
        · subst hk
          have := (alookup_isSome_iff k G).mpr hGk
          rw [hG] at this
          cases this
        · exact ⟨hr, hGk⟩
    | some b =>
      rw [merge_cons_some k' a b rest G hG]
      simp only [List.map_cons, List.mem_cons]
      constructor
      · rintro (rfl | hr)
        · exact ⟨Or.inl rfl, (alookup_isSome_iff k G).mp (by rw [hG]; rfl)⟩
        · obtain ⟨h1, h2⟩ := ih.mp hr
          exact ⟨Or.inr h1, h2⟩
      · rintro ⟨rfl | hr, hGk⟩
        · exact Or.inl rfl
        · exact Or.inr (ih.mpr ⟨hr, hGk⟩)

/-! ### C8: growth loading does no schema validation -/

/-- Counterexample to C8 as stated: a workbook whose only sheet lacks the
required columns 생중량(g) and 지상부 길이(mm) is returned as-is (with only
the school tag added) — `load_growth_data` succeeds instead of failing with
a schema-validation error. -/
theorem load_growth_data_no_validation_cex :
    load_growth_data idnorm dir_full wb_bad = .ok [("하늘고", badsheet_tagged)] ∧
    "생중량(g)" ∉ badsheet_tagged.cols ∧
    "지상부 길이(mm)" ∉ badsheet_tagged.cols :=
  ⟨rfl, by decide, by decide⟩

/-- C8 as amended: whenever the workbook resolves, `load_growth_data`
returns every sheet's table unchanged apart from the school tag — no column
is inspected, so a sheet lacking required columns is returned as-is rather
than rejected. -/
theorem load_growth_data_returns_sheets_unvalidated (norm : Form → String → String)
    (directory : List Entry) (wb : String → List (String × DF)) (p : Entry)
    (h : find_file_by_name norm directory growth_xlsx_name = some p) :
    load_growth_data norm directory wb =
      .ok ((wb p.name).map (fun sh => (sh.1, set_col sh.2 "school" (.str sh.1)))) := by
  unfold load_growth_data
  rw [h]

/-- Witness for the amended C8 on a concrete directory and workbook. -/
theorem load_growth_data_returns_sheets_unvalidated_witness :
    load_growth_data idnorm dir_full wb_good =
      .ok ((wb_good "4개교_생육결과데이터.xlsx").map
        (fun sh => (sh.1, set_col sh.2 "school" (.str sh.1)))) :=
  load_growth_data_returns_sheets_unvalidated idnorm dir_full wb_good
    ⟨"4개교_생육결과데이터.xlsx", true⟩ rfl

/-! ### C7: the correlation matrix -/

/-- A mapped list sum as a sum over index positions. -/
lemma list_sum_map_fin {α : Type} (f : α → ℚ) (l : List α) :
    (l.map f).sum = ∑ i : Fin l.length, f (l.get i) := by
  induction l with
  | nil => simp
  | cons a t ih =>
    simp only [List.map_cons, List.sum_cons, List.length_cons, Fin.sum_univ_succ]
    rw [ih]
    rfl

/-- The centered product sum is symmetric in its two fields. -/
lemma centeredSum_comm (rows : List MergedRow) (f g : MergedRow → ℚ) :
    centeredSum rows f g = centeredSum rows g f := by
  unfold centeredSum
  have hfg : (fun r => (f r - listMean (rows.map f)) * (g r - listMean (rows.map g))) =
      fun r => (g r - listMean (rows.map g)) * (f r - listMean (rows.map f)) :=
    funext fun r => mul_comm _ _
  rw [hfg]

/-- The centered self-product sum is a sum of squares, hence nonnegative. -/
lemma centeredSum_self_nonneg (rows : List MergedRow) (f : MergedRow → ℚ) :
    0 ≤ centeredSum rows f f := by
  unfold centeredSum
  apply List.sum_nonneg
  intro x hx
  obtain ⟨r, _, rfl⟩ := List.mem_map.mp hx
  exact mul_self_nonneg _

/-- Cauchy–Schwarz for the centered product sums. -/
lemma centeredSum_sq_le (rows : List MergedRow) (f g : MergedRow → ℚ) :
    (centeredSum rows f g) ^ 2 ≤ centeredSum rows f f * centeredSum rows g g := by
  unfold centeredSum
  rw [list_sum_map_fin, list_sum_map_fin, list_sum_map_fin]
  have h := Finset.sum_mul_sq_le_sq_mul_sq Finset.univ
    (fun i : Fin rows.length => f (rows.get i) - listMean (rows.map f))
    (fun i : Fin rows.length => g (rows.get i) - listMean (rows.map g))
  simpa only [pow_two] using h

/-- C7: on any merged table whose three fields each have nonzero centered
square sum, `correlate` is symmetric, has diagonal exactly 1, and every
entry lies in [-1, 1]. -/
theorem correlate_props (rows : List MergedRow)
    (hv : ∀ i, centeredSum rows (corr_fields i) (corr_fields i) ≠ 0) :
    ∀ i j, correlate rows i j = correlate rows j i ∧
      correlate rows i i = 1 ∧
      -1 ≤ correlate rows i j ∧ correlate rows i j ≤ 1 := by
  have hpos : ∀ i, (0 : ℚ) < centeredSum rows (corr_fields i) (corr_fields i) :=
    fun i => lt_of_le_of_ne (centeredSum_self_nonneg rows (corr_fields i)) (Ne.symm (hv i))
  intro i j
  have hA : (0 : ℚ) < centeredSum rows (corr_fields i) (corr_fields i) := hpos i
  have hB : (0 : ℚ) < centeredSum rows (corr_fields j) (corr_fields j) := hpos j
  have hA' : (0 : ℝ) < ((centeredSum rows (corr_fields i) (corr_fields i) : ℚ) : ℝ) := by
    exact_mod_cast hA
  have hB' : (0 : ℝ) < ((centeredSum rows (corr_fields j) (corr_fields j) : ℚ) : ℝ) := by
    exact_mod_cast hB
  have hsymm : correlate rows i j = correlate rows j i := by
    unfold correlate pearson
    rw [centeredSum_comm rows (corr_fields i) (corr_fields j), mul_comm]
  have hdiag : correlate rows i i = 1 := by
    unfold correlate pearson
    rw [Real.sqrt_mul_self hA'.le]
    exact div_self (ne_of_gt hA')
  have hcast : ((centeredSum rows (corr_fields i) (corr_fields j) : ℚ) : ℝ) ^ 2 ≤
      ((centeredSum rows (corr_fields i) (corr_fields i) : ℚ) : ℝ) *
        ((centeredSum rows (corr_fields j) (corr_fields j) : ℚ) : ℝ) := by
    exact_mod_cast centeredSum_sq_le rows (corr_fields i) (corr_fields j)
  have hDpos : (0 : ℝ) <
      Real.sqrt (((centeredSum rows (corr_fields i) (corr_fields i) : ℚ) : ℝ) *
        ((centeredSum rows (corr_fields j) (corr_fields j) : ℚ) : ℝ)) :=
    Real.sqrt_pos.mpr (mul_pos hA' hB')
  have habs : |correlate rows i j| ≤ 1 := by
    unfold correlate pearson
    rw [abs_div, abs_of_pos hDpos]
    exact (div_le_one hDpos).mpr (Real.abs_le_sqrt hcast)
  obtain ⟨hlb, hub⟩ := abs_le.mp habs
  exact ⟨hsymm, hdiag, hlb, hub⟩

/-- Witness for C7 on two concrete merged rows with distinct field values. -/
theorem correlate_props_witness :
    (∀ i, centeredSum wrows (corr_fields i) (corr_fields i) ≠ 0) ∧
    (∀ i j, correlate wrows i j = correlate wrows j i ∧
      correlate wrows i i = 1 ∧
      -1 ≤ correlate wrows i j ∧ correlate wrows i j ≤ 1) :=
  have hw : ∀ i, centeredSum wrows (corr_fields i) (corr_fields i) ≠ 0 := by
    intro i
    fin_cases i <;> norm_num [centeredSum, listMean, wrows, corr_fields]
  ⟨hw, correlate_props wrows hw⟩

end PolarPlant
